import Mathlib

/-!
Verification of the subruster subdomain enumeration tool (src/src/main.rs)
against its natural-language specification.

The embedding models the resolution engine of `run_enum`, the wildcard probe
`check_wildcard`, the wordlist loader `load_wordlist_from_file`, the result
writer `save_results`, and the program-level control flow of `main`/`run_enum`.

Modelling choices:
- A DNS lookup guarded by `tokio::time::timeout` has three outcomes:
  success with a list of addresses (rendered as strings, as the code does
  with ip.to_string()), a resolver error, or a timeout.
- A resolver behaviour is a pure function from (name, timeout in seconds)
  to an outcome; the timeout argument is passed so that the timeouts used
  at each call site are visible in the model.
- The clock-derived nonce of `check_wildcard` (SystemTime subsec_nanos) is
  an input to the model: each spawned task receives a nonce through an
  assignment from its task index.
- The concurrent execution of the spawned tasks is modelled as a fold over
  an arbitrary completion order of the indexed candidate list. Each task's
  effect (push into the results vector, insert into the found set, print)
  is performed under mutexes in the code; the fold applies these effects
  atomically per task, and the order list captures all scheduling freedom.
  The semaphore of size `concurrency` (line 172) only throttles how many
  lookups are in flight; it constrains timing, never the per-task effect,
  so the model takes `concurrency` as a parameter that the effects do not
  read.
-/

namespace Subruster

/-- Outcome of one `timeout(dur, resolver.lookup_ip(name))` call:
`Ok(Ok(lookup))`, `Ok(Err(_))`, or `Err(elapsed)` in the Rust code. -/
inductive LookupOutcome where
  | success : List String → LookupOutcome
  | resolverError : LookupOutcome
  | timedOut : LookupOutcome
deriving Repr, DecidableEq

/-- A deterministic resolver behaviour: name and timeout (seconds) to outcome. -/
abbrev Resolver := String → Nat → LookupOutcome

/-- The CLI arguments consumed by the enumeration core (struct EnumArgs). -/
structure EnumArgs where
  domain : String
  timeout : Nat
  include_wildcard : Bool
  silent : Bool
deriving Repr, DecidableEq

/-- Timeout of the main per-candidate lookup: `Duration::from_secs(timeout_duration)`
at lines 195-196, where `timeout_duration = args.timeout` (line 180). -/
def main_lookup_timeout (args : EnumArgs) : Nat := args.timeout

/-- Timeout of the wildcard probe inside `check_wildcard`:
`Duration::from_secs(timeout_duration)` at lines 529-530, where the caller at
line 206 passes the same `timeout_duration = args.timeout`. -/
def wildcard_probe_timeout (args : EnumArgs) : Nat := args.timeout

/-- The synthetic nonce name probed by `check_wildcard` (lines 526-527):
`subruster-test-<nonce>.<domain>`. -/
def wildcard_probe_name (domain : String) (nonce : Nat) : String :=
  "subruster-test-" ++ toString nonce ++ "." ++ domain

/-- `check_wildcard` (lines 515-539): probe the nonce name under the given
timeout; `Ok(lookup.iter().count() > 0)` on success, `Ok(false)` on resolver
error or timeout. -/
def check_wildcard (resolve : Resolver) (domain : String)
    (timeout_duration : Nat) (nonce : Nat) : Except String Bool :=
  match resolve (wildcard_probe_name domain nonce) timeout_duration with
  | LookupOutcome.success lookup => Except.ok (decide (0 < lookup.length))
  | LookupOutcome.resolverError => Except.ok false
  | LookupOutcome.timedOut => Except.ok false

/-- struct SubdomainResult (lines 118-122). -/
structure SubdomainResult where
  subdomain : String
  ips : List String
deriving Repr, DecidableEq

/-- The decision part of one spawned task (lines 192-243): resolve
`sub.domain` under the main timeout; on success with non-empty addresses run
`check_wildcard` (with `unwrap_or(false)`), and submit the result unless a
wildcard was detected and `include_wildcard` is off. `none` means the task
leaves the shared state untouched. -/
def task_outcome (resolve : Resolver) (args : EnumArgs) (nonce : Nat)
    (sub : String) : Option SubdomainResult :=
  let full_domain := sub ++ "." ++ args.domain
  match resolve full_domain (main_lookup_timeout args) with
  | LookupOutcome.success lookup =>
      let ips := lookup
      if !ips.isEmpty then
        let is_wildcard :=
          match check_wildcard resolve args.domain (wildcard_probe_timeout args) nonce with
          | Except.ok b => b
          | Except.error _ => false
        if !is_wildcard || args.include_wildcard then
          some { subdomain := full_domain, ips := ips }
        else
          none
      else
        none
  | LookupOutcome.resolverError => none
  | LookupOutcome.timedOut => none

/-- The shared mutable state of `run_enum`: the `results` vector, the
`found_subdomains` hash set (modelled as a duplicate-free list), and the list
of names printed to the console (one print per successful insert, lines
223-234; `args.silent` only changes the formatting of the line). -/
structure EnumState where
  results : List SubdomainResult
  found_subdomains : List String
  printed : List String
deriving Repr, DecidableEq

/-- Initial state: `Vec::new()` and `HashSet::new()` (lines 173-174). -/
def EnumState.start : EnumState := ⟨[], [], []⟩

/-- Effect of one task on the shared state (lines 210-236): on a submitted
outcome, push onto `results` unconditionally, then insert into
`found_subdomains` and print the name only if it was newly inserted. -/
def run_task (resolve : Resolver) (args : EnumArgs) (nonce : Nat)
    (sub : String) (st : EnumState) : EnumState :=
  match task_outcome resolve args nonce sub with
  | some r =>
      let results := st.results ++ [r]
      if r.subdomain ∈ st.found_subdomains then
        { st with results := results }
      else
        { results := results
          found_subdomains := st.found_subdomains ++ [r.subdomain]
          printed := st.printed ++ [r.subdomain] }
  | none => st

/-- The enumeration loop of `run_enum` (lines 184-251): every indexed
candidate is spawned as a task; `order` is the order in which the task
effects hit the shared state (any permutation of the indexed candidate list),
`nonces` assigns each task index its clock-derived nonce, and `concurrency`
sizes the semaphore, which only throttles scheduling. -/
def run_enum (resolve : Resolver) (args : EnumArgs) (nonces : Nat → Nat)
    (_concurrency : Nat) (order : List (Nat × String)) : EnumState :=
  order.foldl (fun st t => run_task resolve args (nonces t.1) t.2 st) EnumState.start

/-- Number of `check_wildcard` calls one task issues (lines 201-208): exactly
one when the candidate lookup succeeds with a non-empty address list,
otherwise zero. -/
def task_wildcard_probes (resolve : Resolver) (args : EnumArgs)
    (sub : String) : Nat :=
  match resolve (sub ++ "." ++ args.domain) (main_lookup_timeout args) with
  | LookupOutcome.success lookup => if !lookup.isEmpty then 1 else 0
  | LookupOutcome.resolverError => 0
  | LookupOutcome.timedOut => 0

/-- Total number of wildcard probes issued over a whole run. -/
def run_wildcard_probes (resolve : Resolver) (args : EnumArgs)
    (subs : List String) : Nat :=
  (subs.map (task_wildcard_probes resolve args)).sum

/-- Whether a candidate's lookup succeeds with a non-empty address list. -/
def resolves_nonempty (resolve : Resolver) (args : EnumArgs)
    (sub : String) : Bool :=
  match resolve (sub ++ "." ++ args.domain) (main_lookup_timeout args) with
  | LookupOutcome.success lookup => !lookup.isEmpty
  | LookupOutcome.resolverError => false
  | LookupOutcome.timedOut => false

/-- `load_wordlist_from_file` (lines 275-289) on the line sequence of the
file: trim each line, push it unless it is empty or starts with a hash. -/
def load_wordlist_from_file (lines : List String) : List String :=
  lines.foldl
    (fun subdomains line =>
      let l := line.trim
      if !l.isEmpty && !(l.startsWith "#") then subdomains ++ [l]
      else subdomains)
    []

/-- Spec-side loader predicate: a trimmed line is kept when it is non-blank
and does not begin with a hash. -/
def keeps_line (l : String) : Bool := !l.isEmpty && !(l.startsWith "#")

/-- Spec-side loader: strip whitespace from every line, keep exactly the
non-blank non-comment lines, in file order. -/
def wordlist_spec (lines : List String) : List String :=
  (lines.map String.trim).filter keeps_line

/-- `save_results` (lines 541-556): the lines written to the output file,
one `result.subdomain` per entry of the results vector, in order. -/
def save_results (results : List SubdomainResult) : List String :=
  results.map (fun r => r.subdomain)

/-- The two fatal error classes of the program. -/
inductive StartupError where
  | wordlistUnreadable
  | outputUnwritable
deriving Repr, DecidableEq

/-- Observable program-level events of one run of `main`/`run_enum`. -/
inductive RunEvent where
  | enumerationRan
  | fatalExit : StartupError → RunEvent
  | successExit
deriving Repr, DecidableEq

/-- Control flow of `run_enum`/`main` (lines 124-135, 137-273): a wordlist
file that fails to open aborts with a non-zero exit before any task is
spawned (line 155, `?` on `load_wordlist_from_file`); otherwise enumeration
runs to completion, and only then, if an output file was requested,
`save_results` performs `File::create` (line 549) whose failure propagates to
a non-zero exit; otherwise the process exits successfully. The number of
discovered subdomains (`found_count`) is only printed, never branched on. -/
def run_program (wordlist_given wordlist_readable output_given output_writable : Bool)
    (_found_count : Nat) : List RunEvent :=
  if wordlist_given && !wordlist_readable then
    [RunEvent.fatalExit StartupError.wordlistUnreadable]
  else
    RunEvent.enumerationRan ::
      (if output_given && !output_writable then
        [RunEvent.fatalExit StartupError.outputUnwritable]
      else
        [RunEvent.successExit])



/-- Invariant preserved by every task effect: the found set is duplicate-free
and the printed lines are exactly the found names in discovery order. -/
def console_invariant (st : EnumState) : Prop :=
  st.found_subdomains.Nodup ∧ st.printed = st.found_subdomains


/-- Default arguments: domain example.com, default 5 second timeout,
wildcard results excluded, not silent. -/
def argsDefault : EnumArgs := ⟨"example.com", 5, false, false⟩

/-- A resolver with a wildcard catch-all: every name resolves to 1.2.3.4
except www.example.com, which resolves to the distinct address 5.6.7.8. -/
def wildcardCatchAllResolver : Resolver := fun name _ =>
  if name = "www.example.com" then LookupOutcome.success ["5.6.7.8"]
  else LookupOutcome.success ["1.2.3.4"]

/-- A resolver where only www.example.com resolves; every other lookup,
including every wildcard probe, fails. -/
def onlyWwwResolver : Resolver := fun name _ =>
  if name = "www.example.com" then LookupOutcome.success ["1.1.1.1"]
  else LookupOutcome.resolverError

/-- A resolver where exactly www.example.com and mail.example.com resolve. -/
def twoHitResolver : Resolver := fun name _ =>
  if name = "www.example.com" then LookupOutcome.success ["1.1.1.1"]
  else if name = "mail.example.com" then LookupOutcome.success ["2.2.2.2"]
  else LookupOutcome.resolverError

/-- A resolver where every lookup times out. -/
def allTimeoutResolver : Resolver := fun _ _ => LookupOutcome.timedOut

theorem run_task_found_mem (resolve : Resolver) (args : EnumArgs) (nonce : Nat)
    (sub : String) (st : EnumState) (s : String) :
    s ∈ (run_task resolve args nonce sub st).found_subdomains ↔
      s ∈ st.found_subdomains ∨
        ∃ res, task_outcome resolve args nonce sub = some res ∧ res.subdomain = s := by
  unfold run_task
  cases h : task_outcome resolve args nonce sub with
  | none => simp
  | some r =>
      by_cases hm : r.subdomain ∈ st.found_subdomains
      · simp only [if_pos hm]
        constructor
        · exact fun hs => Or.inl hs
        · rintro (hs | ⟨res, hres, hsub⟩)
          · exact hs
          · cases hres
            exact hsub ▸ hm
      · simp only [if_neg hm, List.mem_append, List.mem_singleton]
        constructor
        · rintro (hs | hs)
          · exact Or.inl hs
          · exact Or.inr ⟨r, rfl, hs.symm⟩
        · rintro (hs | ⟨res, hres, hsub⟩)
          · exact Or.inl hs
          · cases hres
            exact Or.inr hsub.symm

theorem run_task_results_mem (resolve : Resolver) (args : EnumArgs) (nonce : Nat)
    (sub : String) (st : EnumState) (r : SubdomainResult) :
    r ∈ (run_task resolve args nonce sub st).results ↔
      r ∈ st.results ∨ task_outcome resolve args nonce sub = some r := by
  unfold run_task
  cases h : task_outcome resolve args nonce sub with
  | none => simp
  | some res =>
      by_cases hm : res.subdomain ∈ st.found_subdomains
      · simp [if_pos hm, List.mem_append, List.mem_singleton, eq_comm]
      · simp [if_neg hm, List.mem_append, List.mem_singleton, eq_comm]

theorem run_enum_foldl_found_mem (resolve : Resolver) (args : EnumArgs)
    (nonces : Nat → Nat) (order : List (Nat × String)) (st : EnumState) (s : String) :
    s ∈ (order.foldl (fun st t => run_task resolve args (nonces t.1) t.2 st) st).found_subdomains ↔
      s ∈ st.found_subdomains ∨
        ∃ t ∈ order, ∃ res,
          task_outcome resolve args (nonces t.1) t.2 = some res ∧ res.subdomain = s := by
  induction order generalizing st with
  | nil => simp
  | cons a rest ih =>
      rw [List.foldl_cons, ih, run_task_found_mem]
      simp only [List.mem_cons]
      constructor
      · rintro ((hs | ⟨res, hres, hsub⟩) | ⟨t, ht, hex⟩)
        · exact Or.inl hs
        · exact Or.inr ⟨a, Or.inl rfl, res, hres, hsub⟩
        · exact Or.inr ⟨t, Or.inr ht, hex⟩
      · rintro (hs | ⟨t, (rfl | ht), hex⟩)
        · exact Or.inl (Or.inl hs)
        · exact Or.inl (Or.inr hex)
        · exact Or.inr ⟨t, ht, hex⟩

theorem run_enum_found_mem (resolve : Resolver) (args : EnumArgs)
    (nonces : Nat → Nat) (concurrency : Nat) (order : List (Nat × String)) (s : String) :
    s ∈ (run_enum resolve args nonces concurrency order).found_subdomains ↔
      ∃ t ∈ order, ∃ res,
        task_outcome resolve args (nonces t.1) t.2 = some res ∧ res.subdomain = s := by
  unfold run_enum
  rw [run_enum_foldl_found_mem]
  simp [EnumState.start]

theorem run_enum_foldl_results_mem (resolve : Resolver) (args : EnumArgs)
    (nonces : Nat → Nat) (order : List (Nat × String)) (st : EnumState) (r : SubdomainResult) :
    r ∈ (order.foldl (fun st t => run_task resolve args (nonces t.1) t.2 st) st).results ↔
      r ∈ st.results ∨
        ∃ t ∈ order, task_outcome resolve args (nonces t.1) t.2 = some r := by
  induction order generalizing st with
  | nil => simp
  | cons a rest ih =>
      rw [List.foldl_cons, ih, run_task_results_mem]
      simp only [List.mem_cons]
      constructor
      · rintro ((hs | hs) | ⟨t, ht, hex⟩)
        · exact Or.inl hs
        · exact Or.inr ⟨a, Or.inl rfl, hs⟩
        · exact Or.inr ⟨t, Or.inr ht, hex⟩
      · rintro (hs | ⟨t, (rfl | ht), hex⟩)
        · exact Or.inl (Or.inl hs)
        · exact Or.inl (Or.inr hex)
        · exact Or.inr ⟨t, ht, hex⟩

theorem run_enum_results_mem (resolve : Resolver) (args : EnumArgs)
    (nonces : Nat → Nat) (concurrency : Nat) (order : List (Nat × String)) (r : SubdomainResult) :
    r ∈ (run_enum resolve args nonces concurrency order).results ↔
      ∃ t ∈ order, task_outcome resolve args (nonces t.1) t.2 = some r := by
  unfold run_enum
  rw [run_enum_foldl_results_mem]
  simp [EnumState.start]


theorem run_task_console_invariant (resolve : Resolver) (args : EnumArgs)
    (nonce : Nat) (sub : String) (st : EnumState)
    (h : console_invariant st) :
    console_invariant (run_task resolve args nonce sub st) := by
  obtain ⟨hnd, hpr⟩ := h
  unfold run_task
  cases ho : task_outcome resolve args nonce sub with
  | none => exact ⟨hnd, hpr⟩
  | some r =>
      by_cases hm : r.subdomain ∈ st.found_subdomains
      · simp only [if_pos hm]
        exact ⟨hnd, hpr⟩
      · simp only [if_neg hm]
        constructor
        · rw [List.nodup_append]
          exact ⟨hnd, List.nodup_singleton _, by
            intro x hx hx2
            rw [List.mem_singleton] at hx2
            exact hm (hx2 ▸ hx)⟩
        · rw [hpr]

theorem run_enum_console_invariant (resolve : Resolver) (args : EnumArgs)
    (nonces : Nat → Nat) (concurrency : Nat) (order : List (Nat × String)) :
    console_invariant (run_enum resolve args nonces concurrency order) := by
  unfold run_enum
  have base : console_invariant EnumState.start := ⟨List.nodup_nil, rfl⟩
  generalize EnumState.start = st at base ⊢
  induction order generalizing st with
  | nil => exact base
  | cons a rest ih =>
      rw [List.foldl_cons]
      exact ih _ (run_task_console_invariant _ _ _ _ _ base)

theorem task_outcome_none_of_wildcard (resolve : Resolver) (args : EnumArgs)
    (nonce : Nat) (sub : String)
    (hiw : args.include_wildcard = false)
    (hwc : check_wildcard resolve args.domain (wildcard_probe_timeout args) nonce = Except.ok true) :
    task_outcome resolve args nonce sub = none := by
  simp only [task_outcome]
  cases h : resolve (sub ++ "." ++ args.domain) (main_lookup_timeout args) with
  | success lookup => simp [hwc, hiw]
  | resolverError => rfl
  | timedOut => rfl

theorem task_outcome_some_of_no_wildcard (resolve : Resolver) (args : EnumArgs)
    (nonce : Nat) (sub : String) (ips : List String)
    (hwc : check_wildcard resolve args.domain (wildcard_probe_timeout args) nonce = Except.ok false)
    (hres : resolve (sub ++ "." ++ args.domain) (main_lookup_timeout args) = LookupOutcome.success ips)
    (hips : ips ≠ []) :
    task_outcome resolve args nonce sub = some ⟨sub ++ "." ++ args.domain, ips⟩ := by
  simp only [task_outcome]
  rw [hres]
  simp [hwc, hips]


theorem task_wildcard_probes_eq (resolve : Resolver) (args : EnumArgs) (sub : String) :
    task_wildcard_probes resolve args sub =
      if resolves_nonempty resolve args sub then 1 else 0 := by
  unfold task_wildcard_probes resolves_nonempty
  cases resolve (sub ++ "." ++ args.domain) (main_lookup_timeout args) <;> simp

theorem load_wordlist_foldl (lines : List String) (acc : List String) :
    lines.foldl
      (fun subdomains line =>
        let l := line.trim
        if !l.isEmpty && !(l.startsWith "#") then subdomains ++ [l]
        else subdomains)
      acc = acc ++ wordlist_spec lines := by
  induction lines generalizing acc with
  | nil => simp [wordlist_spec]
  | cons a rest ih =>
      rw [List.foldl_cons, ih]
      simp only [wordlist_spec, List.map_cons, List.filter_cons]
      by_cases h : keeps_line a.trim
      · rw [if_pos h]
        have h2 : (!a.trim.isEmpty && !(a.trim.startsWith "#")) = true := h
        simp only [h2, if_true, List.append_assoc, List.singleton_append]
      · rw [if_neg h]
        have h2 : (!a.trim.isEmpty && !(a.trim.startsWith "#")) = false := by
          simpa [keeps_line] using h
        simp [h2, wordlist_spec]

/- Concrete fixtures used by witnesses and counterexamples. -/


/-- Claim C1, counterexample: the claim says the wildcard probe is issued
exactly once per program run; on a run where the two candidates www and mail
both resolve, the code issues two wildcard probes, not one. -/
theorem C1_counterexample_two_probes :
    run_wildcard_probes twoHitResolver argsDefault ["www", "mail"] = 2 ∧ (2 : Nat) ≠ 1 := by
  constructor
  · decide
  · decide

/-- Claim C1, amended: the wildcard probe is not issued once before
enumeration; it is issued inside each spawned task, exactly once per
candidate whose lookup succeeds with a non-empty address list, so the total
number of probes in a run equals the number of such candidates. -/
theorem C1_probe_once_per_resolving_candidate (resolve : Resolver) (args : EnumArgs)
    (subs : List String) :
    run_wildcard_probes resolve args subs =
      (subs.filter (resolves_nonempty resolve args)).length := by
  induction subs with
  | nil => rfl
  | cons a rest ih =>
      simp only [run_wildcard_probes, List.map_cons, List.sum_cons, List.filter_cons] at *
      rw [task_wildcard_probes_eq]
      by_cases h : resolves_nonempty resolve args a
      · simp [h, ih, Nat.add_comm]
      · simp [h, ih]

/-- Claim C5: a candidate whose resolution errors, times out, or returns an
empty address set leaves the shared state exactly as it was: nothing is
stored, nothing is printed, and the model performs no retry. -/
theorem C5_failures_silently_discarded (resolve : Resolver) (args : EnumArgs)
    (nonce : Nat) (sub : String) (st : EnumState)
    (h : resolve (sub ++ "." ++ args.domain) (main_lookup_timeout args) = LookupOutcome.resolverError ∨
         resolve (sub ++ "." ++ args.domain) (main_lookup_timeout args) = LookupOutcome.timedOut ∨
         resolve (sub ++ "." ++ args.domain) (main_lookup_timeout args) = LookupOutcome.success []) :
    run_task resolve args nonce sub st = st := by
  have hout : task_outcome resolve args nonce sub = none := by
    simp only [task_outcome]
    rcases h with h | h | h <;> simp [h]
  simp [run_task, hout]

/-- Witness for C5 at a concrete input: with a resolver where every lookup
times out, the task for www leaves the initial state unchanged. -/
theorem C5_witness :
    (allTimeoutResolver ("www" ++ "." ++ argsDefault.domain) (main_lookup_timeout argsDefault) =
        LookupOutcome.resolverError ∨
      allTimeoutResolver ("www" ++ "." ++ argsDefault.domain) (main_lookup_timeout argsDefault) =
        LookupOutcome.timedOut ∨
      allTimeoutResolver ("www" ++ "." ++ argsDefault.domain) (main_lookup_timeout argsDefault) =
        LookupOutcome.success []) ∧
    run_task allTimeoutResolver argsDefault 0 "www" EnumState.start = EnumState.start :=
  ⟨Or.inr (Or.inl rfl),
    C5_failures_silently_discarded allTimeoutResolver argsDefault 0 "www" EnumState.start
      (Or.inr (Or.inl rfl))⟩

/-- Claim C6, counterexample: at the default five second timeout the wildcard
probe does not run under a strictly shorter timeout than the main lookup. -/
theorem C6_counterexample_not_shorter :
    ¬ (wildcard_probe_timeout argsDefault < main_lookup_timeout argsDefault) := by
  decide

/-- Claim C6, amended: the wildcard probe runs under exactly the same timeout
as the main per-candidate lookup (both are Duration::from_secs of the same
args.timeout), not a strictly shorter one. -/
theorem C6_probe_timeout_equals_main (args : EnumArgs) :
    wildcard_probe_timeout args = main_lookup_timeout args := rfl

/-- Claim C9: the wordlist loader trims every line and keeps, in file order,
exactly the trimmed lines that are non-blank and do not begin with a hash. -/
theorem C9_loader_filters_exactly (lines : List String) :
    load_wordlist_from_file lines = wordlist_spec lines := by
  have h := load_wordlist_foldl lines []
  simpa [load_wordlist_from_file] using h

/-- Claim C10: check_wildcard is total over every resolver outcome: it always
returns Ok, and both resolver errors and timeouts are mapped to Ok false. -/
theorem C10_check_wildcard_total (resolve : Resolver) (domain : String)
    (timeout_duration nonce : Nat) :
    (∃ b : Bool, check_wildcard resolve domain timeout_duration nonce = Except.ok b) ∧
    (resolve (wildcard_probe_name domain nonce) timeout_duration = LookupOutcome.resolverError →
      check_wildcard resolve domain timeout_duration nonce = Except.ok false) ∧
    (resolve (wildcard_probe_name domain nonce) timeout_duration = LookupOutcome.timedOut →
      check_wildcard resolve domain timeout_duration nonce = Except.ok false) := by
  refine ⟨?_, ?_, ?_⟩
  · unfold check_wildcard
    cases resolve (wildcard_probe_name domain nonce) timeout_duration <;> exact ⟨_, rfl⟩
  · intro h
    simp [check_wildcard, h]
  · intro h
    simp [check_wildcard, h]

/-- Witness for C10 at a concrete input: the all-timeout resolver makes the
probe time out and check_wildcard returns Ok false. -/
theorem C10_witness :
    allTimeoutResolver (wildcard_probe_name "example.com" 0) 5 = LookupOutcome.timedOut ∧
    check_wildcard allTimeoutResolver "example.com" 5 0 = Except.ok false :=
  ⟨rfl, (C10_check_wildcard_total allTimeoutResolver "example.com" 5 0).2.2 rfl⟩


/-- Claim C2, counterexample: with a wildcard that answers every unknown name
with 1.2.3.4 while www resolves to the different address 5.6.7.8, the claim
says www.example.com survives; in the code the per-candidate wildcard check
returns true and www.example.com is suppressed, leaving everything empty. -/
theorem C2_counterexample_differing_address_suppressed :
    wildcardCatchAllResolver "www.example.com" (main_lookup_timeout argsDefault) =
      LookupOutcome.success ["5.6.7.8"] ∧
    wildcardCatchAllResolver (wildcard_probe_name "example.com" 0) (wildcard_probe_timeout argsDefault) =
      LookupOutcome.success ["1.2.3.4"] ∧
    (["5.6.7.8"] : List String) ≠ ["1.2.3.4"] ∧
    argsDefault.include_wildcard = false ∧
    (run_enum wildcardCatchAllResolver argsDefault (fun _ => 0) 100 [(0, "www")]).found_subdomains = [] ∧
    (run_enum wildcardCatchAllResolver argsDefault (fun _ => 0) 100 [(0, "www")]).results = [] :=
  ⟨by decide, by decide, by decide, rfl, by decide, by decide⟩

/-- Claim C2, amended: the code never compares a candidate's address set with
the wildcard's addresses; check_wildcard only reports whether the nonce name
resolved. When the wildcard check answers true for every probed task and
include_wildcard is off, every candidate is discarded — regardless of its
addresses — and the run ends in the initial (empty) state. -/
theorem C2_wildcard_discards_regardless_of_addresses (resolve : Resolver) (args : EnumArgs)
    (nonces : Nat → Nat) (concurrency : Nat) (order : List (Nat × String))
    (hiw : args.include_wildcard = false)
    (hwc : ∀ t ∈ order,
      check_wildcard resolve args.domain (wildcard_probe_timeout args) (nonces t.1) = Except.ok true) :
    run_enum resolve args nonces concurrency order = EnumState.start := by
  unfold run_enum
  induction order with
  | nil => rfl
  | cons a rest ih =>
      rw [List.foldl_cons]
      have hnone := task_outcome_none_of_wildcard resolve args (nonces a.1) a.2 hiw
        (hwc a (List.mem_cons_self a rest))
      have hid : run_task resolve args (nonces a.1) a.2 EnumState.start = EnumState.start := by
        simp [run_task, hnone]
      rw [hid]
      exact ih (fun t ht => hwc t (List.mem_cons_of_mem a ht))

/-- Witness for C2's amended theorem at a concrete input. -/
theorem C2_witness :
    argsDefault.include_wildcard = false ∧
    (∀ t ∈ ([((0 : Nat), "www")] : List (Nat × String)),
      check_wildcard wildcardCatchAllResolver argsDefault.domain (wildcard_probe_timeout argsDefault)
        ((fun _ => 0) t.1) = Except.ok true) ∧
    run_enum wildcardCatchAllResolver argsDefault (fun _ => 0) 100 [(0, "www")] = EnumState.start := by
  have hwc : ∀ t ∈ ([((0 : Nat), "www")] : List (Nat × String)),
      check_wildcard wildcardCatchAllResolver argsDefault.domain (wildcard_probe_timeout argsDefault)
        ((fun _ => 0) t.1) = Except.ok true := by
    intro t ht
    rw [List.mem_singleton] at ht
    subst ht
    rfl
  exact ⟨rfl, hwc,
    C2_wildcard_discards_regardless_of_addresses wildcardCatchAllResolver argsDefault
      (fun _ => 0) 100 [(0, "www")] rfl hwc⟩

/-- Claim C3, counterexample: submitting the duplicate candidate www twice
stores two entries under the same full domain name in the results vector, and
the saved file repeats the line; only the console print is deduplicated. -/
theorem C3_counterexample_duplicates_stored :
    save_results (run_enum onlyWwwResolver argsDefault (fun _ => 0) 100
        [(0, "www"), (1, "www")]).results = ["www.example.com", "www.example.com"] ∧
    ¬ ((run_enum onlyWwwResolver argsDefault (fun _ => 0) 100
        [(0, "www"), (1, "www")]).results.map (fun r => r.subdomain)).Nodup :=
  ⟨by decide, by decide⟩

/-- Claim C3, amended: only the console report is deduplicated — the printed
lines are exactly the distinct discovered names, each printed once (the
found_subdomains set is duplicate-free and the printed list equals it); the
results vector, and hence the saved file, may store the same name several
times. -/
theorem C3_console_report_deduplicated (resolve : Resolver) (args : EnumArgs)
    (nonces : Nat → Nat) (concurrency : Nat) (order : List (Nat × String)) :
    (run_enum resolve args nonces concurrency order).printed.Nodup ∧
    (run_enum resolve args nonces concurrency order).printed =
      (run_enum resolve args nonces concurrency order).found_subdomains ∧
    (run_enum resolve args nonces concurrency order).found_subdomains.Nodup := by
  obtain ⟨hnd, hpr⟩ := run_enum_console_invariant resolve args nonces concurrency order
  exact ⟨hpr ▸ hnd, hpr, hnd⟩

/-- Claim C4, counterexample: with a readable wordlist and an unwritable
output path, the run trace shows enumeration running before the fatal
output error — the process does not terminate before enumeration starts. -/
theorem C4_counterexample_enumeration_before_error :
    run_program true true true false 0 =
      [RunEvent.enumerationRan, RunEvent.fatalExit StartupError.outputUnwritable] ∧
    RunEvent.enumerationRan ∈ run_program true true true false 0 :=
  ⟨by decide, by decide⟩

/-- Claim C4, amended: an unreadable wordlist aborts with a non-zero exit
before enumeration; an unwritable output path also yields a non-zero exit,
but only after enumeration has completed (File::create happens at save
time); otherwise the run exits successfully, and the trace never depends on
how many subdomains were found. -/
theorem C4_exit_behaviour (wg wr og ow : Bool) (n m : Nat) :
    (wg = true → wr = false →
      run_program wg wr og ow n = [RunEvent.fatalExit StartupError.wordlistUnreadable]) ∧
    (¬ (wg = true ∧ wr = false) → og = true → ow = false →
      run_program wg wr og ow n =
        [RunEvent.enumerationRan, RunEvent.fatalExit StartupError.outputUnwritable]) ∧
    (¬ (wg = true ∧ wr = false) → ¬ (og = true ∧ ow = false) →
      run_program wg wr og ow n = [RunEvent.enumerationRan, RunEvent.successExit]) ∧
    run_program wg wr og ow n = run_program wg wr og ow m := by
  cases wg <;> cases wr <;> cases og <;> cases ow <;> simp [run_program]

/-- Witness for C4's amended theorem at concrete inputs. -/
theorem C4_witness :
    run_program true true true false 0 =
      [RunEvent.enumerationRan, RunEvent.fatalExit StartupError.outputUnwritable] ∧
    run_program true false true true 0 = [RunEvent.fatalExit StartupError.wordlistUnreadable] :=
  ⟨(C4_exit_behaviour true true true false 0 0).2.1 (by simp) rfl rfl,
    (C4_exit_behaviour true false true true 0 0).1 rfl rfl⟩

/-- Claim C7: for a fixed deterministic resolver behaviour and a fixed nonce
assignment, any two runs over permuted completion orders and any two
concurrency limits in [1, N] discover exactly the same set of names. -/
theorem C7_found_set_independent_of_concurrency (resolve : Resolver) (args : EnumArgs)
    (nonces : Nat → Nat) (c1 c2 : Nat) (_h1 : 1 ≤ c1) (_h2 : 1 ≤ c2)
    (order1 order2 : List (Nat × String)) (hperm : order1.Perm order2) :
    (run_enum resolve args nonces c1 order1).found_subdomains.toFinset =
      (run_enum resolve args nonces c2 order2).found_subdomains.toFinset := by
  ext s
  simp only [List.mem_toFinset, run_enum_found_mem]
  constructor
  · rintro ⟨t, ht, hex⟩
    exact ⟨t, hperm.mem_iff.mp ht, hex⟩
  · rintro ⟨t, ht, hex⟩
    exact ⟨t, hperm.mem_iff.mpr ht, hex⟩

/-- Witness for C7 at a concrete input: concurrency 1 over one completion
order and concurrency 100 over the swapped order find the same name set. -/
theorem C7_witness :
    (1 : Nat) ≤ 1 ∧ (1 : Nat) ≤ 100 ∧
    ([((0 : Nat), "mail"), (1, "www")] : List (Nat × String)).Perm [(1, "www"), (0, "mail")] ∧
    (run_enum twoHitResolver argsDefault (fun _ => 0) 1
        [(0, "mail"), (1, "www")]).found_subdomains.toFinset =
      (run_enum twoHitResolver argsDefault (fun _ => 0) 100
        [(1, "www"), (0, "mail")]).found_subdomains.toFinset :=
  ⟨le_refl 1, by decide, List.Perm.swap _ _ _,
    C7_found_set_independent_of_concurrency twoHitResolver argsDefault (fun _ => 0) 1 100
      (le_refl 1) (by decide) _ _ (List.Perm.swap _ _ _)⟩

/-- Claim C8: when every wildcard probe of the run finds that the nonce name
does not resolve (no noise signature), no filtering occurs: every candidate
whose lookup succeeds with a non-empty address set appears in the final found
set and in the stored results. -/
theorem C8_no_wildcard_no_filtering (resolve : Resolver) (args : EnumArgs)
    (nonces : Nat → Nat) (concurrency : Nat) (order : List (Nat × String))
    (hwc : ∀ t ∈ order,
      check_wildcard resolve args.domain (wildcard_probe_timeout args) (nonces t.1) = Except.ok false) :
    ∀ t ∈ order, ∀ ips,
      resolve (t.2 ++ "." ++ args.domain) (main_lookup_timeout args) = LookupOutcome.success ips →
      ips ≠ [] →
      (t.2 ++ "." ++ args.domain) ∈
        (run_enum resolve args nonces concurrency order).found_subdomains ∧
      ∃ res ∈ (run_enum resolve args nonces concurrency order).results,
        res.subdomain = t.2 ++ "." ++ args.domain := by
  intro t ht ips hres hips
  have hsome := task_outcome_some_of_no_wildcard resolve args (nonces t.1) t.2 ips
    (hwc t ht) hres hips
  constructor
  · rw [run_enum_found_mem]
    exact ⟨t, ht, ⟨t.2 ++ "." ++ args.domain, ips⟩, hsome, rfl⟩
  · refine ⟨⟨t.2 ++ "." ++ args.domain, ips⟩, ?_, rfl⟩
    rw [run_enum_results_mem]
    exact ⟨t, ht, hsome⟩

/-- Witness for C8 at a concrete input: with no wildcard, the resolving
candidate www ends up in the found set. -/
theorem C8_witness :
    (∀ t ∈ ([((0 : Nat), "www")] : List (Nat × String)),
      check_wildcard onlyWwwResolver argsDefault.domain (wildcard_probe_timeout argsDefault)
        ((fun _ => 0) t.1) = Except.ok false) ∧
    onlyWwwResolver ("www" ++ "." ++ argsDefault.domain) (main_lookup_timeout argsDefault) =
      LookupOutcome.success ["1.1.1.1"] ∧
    (["1.1.1.1"] : List String) ≠ [] ∧
    ("www" ++ "." ++ argsDefault.domain) ∈
      (run_enum onlyWwwResolver argsDefault (fun _ => 0) 100 [(0, "www")]).found_subdomains := by
  have hwc : ∀ t ∈ ([((0 : Nat), "www")] : List (Nat × String)),
      check_wildcard onlyWwwResolver argsDefault.domain (wildcard_probe_timeout argsDefault)
        ((fun _ => 0) t.1) = Except.ok false := by
    intro t ht
    rw [List.mem_singleton] at ht
    subst ht
    rfl
  refine ⟨hwc, by decide, by decide, ?_⟩
  exact (C8_no_wildcard_no_filtering onlyWwwResolver argsDefault (fun _ => 0) 100 [(0, "www")]
    hwc (0, "www") (List.mem_singleton.mpr rfl) ["1.1.1.1"] (by decide) (by decide)).1


end Subruster
